import Mathlib

/-!
Shallow embedding of the commit-teacher session core (cache manifest,
git navigation state, analyzer result handling, and the TUI session
orchestration), together with proofs of the specification claims.

Python sources embedded here:
* `src/commit_teacher/cache.py` (`CacheHandler`)
* `src/commit_teacher/git_handler.py` (`GitHandler`)
* `src/commit_teacher/analyzer.py` (`CodeAnalyzer.analyze_commit_changes`)
* `src/commit_teacher/ui/app.py` (`CommitTeacherApp`)

Modelling conventions: Python ints are `Int` (unbounded), Python strings
are `String`, Python `None`-able values are `Option`, the commit dict of
the manifest is an insertion-ordered association list with overwriting
insert, file-system reads/writes are passed in as oracles (an `Option`
result models a read that can fail) and disk persistence of the manifest
is identified with the in-memory manifest (write failures are swallowed
by `_save_to_disk`, so the in-memory dict is the source of truth).
`round(x, 1)` is modelled over `ℚ` with round-half-to-even.
-/

namespace CommitTeacher

/-- One cached commit analysis record, as written by
`CacheHandler.save_commit_analysis` (`cache.py` lines 98-104).  The
constant `cached: True` field is omitted. -/
structure CommitEntry where
  sha : String
  explanation : String
  architecture_version : Option String
  analyzed_at : String
  deriving DecidableEq, Repr

/-- The in-memory cache manifest `CacheHandler.cache_data`
(`cache.py` `_initialize_cache`, lines 70-78).  Reads of missing keys in
the Python dict use `.get` with defaults; the record folds those defaults
into always-present fields. -/
structure CacheData where
  repo_name : String
  repo_url : String
  last_commit_index : Int
  total_commits : Int
  cache_version : String
  created_at : String
  commits : List (String × CommitEntry)
  deriving DecidableEq, Repr

/-- Python dict insertion `commits[sha] = entry`: overwrite in place if the
key exists, append otherwise (insertion order preserved). -/
def dictInsert (m : List (String × CommitEntry)) (k : String) (v : CommitEntry) :
    List (String × CommitEntry) :=
  match m with
  | [] => [(k, v)]
  | (k', v') :: rest => if k' = k then (k, v) :: rest else (k', v') :: dictInsert rest k v

/-- `CacheHandler._initialize_cache` (`cache.py` lines 68-79): a fresh
manifest with cursor `-1`, zero total commits and an empty commit map.
`now` stands for `datetime.now().isoformat()`. -/
def initialize_cache (repo_name repo_url now : String) : CacheData :=
  { repo_name := repo_name
    repo_url := repo_url
    last_commit_index := -1
    total_commits := 0
    cache_version := "1.0"
    created_at := now
    commits := [] }

/-- Outcome of trying to read the persisted manifest file in
`CacheHandler.load_cache`: the file is absent; `open`/read fails with an
`IOError`; the bytes decode as UTF-8 but are not valid JSON
(`json.JSONDecodeError`); the bytes are not valid UTF-8, so reading the
text-mode file inside `json.load` raises `UnicodeDecodeError` with
message `msg` (a `ValueError` that is neither a `JSONDecodeError` nor an
`IOError`); or the file parses to a manifest. -/
inductive DiskFile where
  | absent : DiskFile
  | ioError : DiskFile
  | jsonDecodeError : DiskFile
  | unicodeDecodeError : String → DiskFile
  | valid : CacheData → DiskFile
  deriving DecidableEq, Repr

/-- `CacheHandler.load_cache` (`cache.py` lines 34-66): returns `true` and
adopts the stored manifest when one was read successfully; a missing
file, or one whose read raises `IOError` or `json.JSONDecodeError` —
the only exceptions the `except` clause catches — leads to a fresh
manifest and `false`.  A `UnicodeDecodeError` from a present manifest
with invalid UTF-8 bytes is **not** caught and propagates to the caller,
modelled as the `Except.error` outcome. -/
def load_cache (disk : DiskFile) (repo_name repo_url now : String) :
    Except String (Bool × CacheData) :=
  match disk with
  | .valid d => .ok (true, d)
  | .jsonDecodeError => .ok (false, initialize_cache repo_name repo_url now)
  | .ioError => .ok (false, initialize_cache repo_name repo_url now)
  | .unicodeDecodeError msg => .error msg
  | .absent => .ok (false, initialize_cache repo_name repo_url now)

/-- `CacheHandler.save_commit_analysis` (`cache.py` lines 81-107). -/
def save_commit_analysis (d : CacheData) (commit_sha explanation : String)
    (architecture_version : Option String) (now : String) : CacheData :=
  let entry : CommitEntry := ⟨commit_sha, explanation, architecture_version, now⟩
  { d with commits := dictInsert d.commits commit_sha entry }

/-- `CacheHandler.get_commit_analysis` (`cache.py` lines 109-125): O(1)
lookup of the explanation, `none` on a miss. -/
def get_commit_analysis (d : CacheData) (commit_sha : String) : Option String :=
  (d.commits.lookup commit_sha).map (fun e => e.explanation)

/-- `CacheHandler.save_last_position` (`cache.py` lines 127-138). -/
def save_last_position (d : CacheData) (commit_index total_commits : Int) : CacheData :=
  { d with last_commit_index := commit_index, total_commits := total_commits }

/-- `CacheHandler.get_last_position` (`cache.py` lines 140-149). -/
def get_last_position (d : CacheData) : Int × Int :=
  (d.last_commit_index, d.total_commits)

/-- `CacheHandler.has_cache_for_repo` (`cache.py` lines 172-174). -/
def has_cache_for_repo (d : CacheData) : Bool :=
  d.commits.length > 0

/-- Round-half-to-even on `ℚ`, the semantics of Python's `round` on an
exactly representable value. -/
def roundHalfEven (x : ℚ) : ℤ :=
  if x - ⌊x⌋ < 1/2 then ⌊x⌋
  else if x - ⌊x⌋ > 1/2 then ⌊x⌋ + 1
  else if 2 ∣ ⌊x⌋ then ⌊x⌋ else ⌊x⌋ + 1

/-- Python `round(x, 1)`: round to one decimal digit. -/
def round1 (x : ℚ) : ℚ :=
  (roundHalfEven (x * 10) : ℚ) / 10

/-- Result record of `CacheHandler.get_cache_stats`. -/
structure CacheStats where
  commits_cached : Nat
  total_commits : Int
  coverage_percent : ℚ
  last_position : Int
  repo_name : String
  deriving DecidableEq, Repr

/-- `CacheHandler.get_cache_stats` (`cache.py` lines 151-170): coverage is
`cached / total * 100` when `total > 0`, else `0`, rounded to one
decimal. -/
def get_cache_stats (d : CacheData) : CacheStats :=
  let commits_cached := d.commits.length
  let coverage : ℚ :=
    if d.total_commits > 0 then
      (commits_cached : ℚ) / (d.total_commits : ℚ) * 100
    else 0
  { commits_cached := commits_cached
    total_commits := d.total_commits
    coverage_percent := round1 coverage
    last_position := d.last_commit_index + 1
    repo_name := d.repo_name }

/-- Result record of `CacheHandler.update_total_commits`. -/
structure UpdateInfo where
  new_commits : Int
  old_total : Int
  new_total : Int
  deriving DecidableEq, Repr

/-- `CacheHandler.update_total_commits` (`cache.py` lines 190-214): stores
the new total and reports `max 0 (new - old)` new commits. -/
def update_total_commits (d : CacheData) (total_commits : Int) :
    CacheData × UpdateInfo :=
  let old_total := d.total_commits
  ({ d with total_commits := total_commits },
   { new_commits := max 0 (total_commits - old_total)
     old_total := old_total
     new_total := total_commits })

/-- Navigation-relevant state of `GitHandler` (`git_handler.py` lines
27-31): whether a repository object is loaded, the commit sequence
(oldest first, each commit represented by its full hex sha) and the
current index.  Workspace paths and the URL are irrelevant to the claims
and omitted. -/
structure GitState where
  repo : Bool
  commits : List String
  current_commit_index : Int
  deriving DecidableEq, Repr

/-- Python `s[:7]`: the short form of a commit sha. -/
def shortSha (s : String) : String := s.take 7

/-- Outcome of `self.repo.git.checkout(...)`: `none` means success,
`some e` a `GitCommandError` with message `e`.  The checkout itself only
touches the on-disk working tree, never `GitState`. -/
abbrev CheckoutResult := Option String

/-- `GitHandler.go_to_next_commit` (`git_handler.py` lines 191-215).
Returns the updated state and the `(success, message)` pair.  The
checkout runs before the index update, so a failed checkout leaves the
index unchanged. -/
def go_to_next_commit (g : GitState) (co : CheckoutResult) :
    GitState × Bool × String :=
  if g.repo = false ∨ g.commits = [] then
    (g, false, "No repository loaded")
  else if g.current_commit_index ≥ (g.commits.length : Int) - 1 then
    (g, false, "Already at the latest commit")
  else
    match co with
    | some e => (g, false, "Git error: " ++ e)
    | none =>
      let next_index := g.current_commit_index + 1
      let sha7 := shortSha ((g.commits.get? next_index.toNat).getD "")
      let total := toString (g.commits.length : Int)
      ({ g with current_commit_index := next_index }, true,
       "Checked out commit " ++ toString (next_index + 1) ++ "/" ++ total ++ ": " ++ sha7)

/-- `GitHandler.go_to_previous_commit` (`git_handler.py` lines 217-241). -/
def go_to_previous_commit (g : GitState) (co : CheckoutResult) :
    GitState × Bool × String :=
  if g.repo = false ∨ g.commits = [] then
    (g, false, "No repository loaded")
  else if g.current_commit_index ≤ 0 then
    (g, false, "Already at the first commit")
  else
    match co with
    | some e => (g, false, "Git error: " ++ e)
    | none =>
      let prev_index := g.current_commit_index - 1
      let sha7 := shortSha ((g.commits.get? prev_index.toNat).getD "")
      let total := toString (g.commits.length : Int)
      ({ g with current_commit_index := prev_index }, true,
       "Checked out commit " ++ toString (prev_index + 1) ++ "/" ++ total ++ ": " ++ sha7)

/-- `GitHandler.get_current_commit` (`git_handler.py` lines 243-251). -/
def get_current_commit (g : GitState) : Option String :=
  if g.current_commit_index < 0 ∨ g.current_commit_index ≥ (g.commits.length : Int) then
    none
  else g.commits.get? g.current_commit_index.toNat

/-- The `sha` field of `GitHandler.get_commit_stats` (`git_handler.py`
lines 320-339) as read back by `commit_stats.get("sha", "")` in
`app.py`: the short sha of the current commit, or `""` when there is no
current commit (empty stats dict). -/
def get_commit_sha (g : GitState) : String :=
  match get_current_commit g with
  | none => ""
  | some c => shortSha c

/-- External diff oracle: `self.repo.git.diff(prev, cur)` for a pair of
full shas; `none` models a `GitCommandError`. -/
abbrev DiffOracle := String → String → Option String

/-- `GitHandler.get_commit_diff` (`git_handler.py` lines 263-279): `none`
when no repository is loaded, when the current commit has no predecessor
(`current_commit_index <= 0`), or when git raises.  An out-of-range index
(which would raise `IndexError` in Python) is also mapped to `none`. -/
def get_commit_diff (g : GitState) (diff : DiffOracle) : Option String :=
  if g.repo = false ∨ g.current_commit_index ≤ 0 then none
  else
    match g.commits.get? g.current_commit_index.toNat,
          g.commits.get? (g.current_commit_index - 1).toNat with
    | some current, some previous => diff previous current
    | _, _ => none

/-- `GitHandler.get_progress` (`git_handler.py` lines 406-412). -/
def get_progress (g : GitState) : Int × Int :=
  (g.current_commit_index + 1, (g.commits.length : Int))

/-- A navigation intent from the presentation layer. -/
inductive Direction where
  | forward : Direction
  | backward : Direction
  deriving DecidableEq, Repr

/-- One Advance request together with the checkout outcome the external
git process produces for it. -/
def advance (g : GitState) (dir : Direction) (co : CheckoutResult) :
    GitState × Bool × String :=
  match dir with
  | .forward => go_to_next_commit g co
  | .backward => go_to_previous_commit g co

/-- Run a whole sequence of Advance requests, threading the git state. -/
def runAdvances (g : GitState) (ops : List (Direction × CheckoutResult)) : GitState :=
  match ops with
  | [] => g
  | (dir, co) :: rest => runAdvances (advance g dir co).1 rest

/-- The cursor range invariant `-1 ≤ index ≤ N - 1`. -/
def cursorInRange (g : GitState) : Prop :=
  -1 ≤ g.current_commit_index ∧ g.current_commit_index ≤ (g.commits.length : Int) - 1

instance (g : GitState) : Decidable (cursorInRange g) := by
  unfold cursorInRange; infer_instance

/-- Left-to-right, non-overlapping split of a character list on a
separator, the scanning semantics of Python `str.split(sep)` (and of
`String.splitOn`); fuelled so that it reduces by kernel computation.
With `fuel ≥ input length` the fuel never runs out for a nonempty
separator. -/
def splitLoop (sep : List Char) : Nat → List Char → List (List Char)
  | _, [] => [[]]
  | 0, l => [l]
  | f + 1, c :: rest =>
    if sep.isPrefixOf (c :: rest) then
      [] :: splitLoop sep f ((c :: rest).drop sep.length)
    else
      match splitLoop sep f rest with
      | [] => [[c]]
      | t :: ts => (c :: t) :: ts

/-- Python `s.split(sep)` for a nonempty `sep` (the only way the sources
call it; Python raises on an empty separator, mapped to `[s]` here). -/
def pySplit (s sep : String) : List String :=
  if sep.data.isEmpty then [s]
  else (splitLoop sep.data (s.data.length + 1) s.data).map String.mk

/-- Python `s.strip()`: remove leading and trailing whitespace. -/
def pyStrip (s : String) : String :=
  String.mk (((s.data.dropWhile Char.isWhitespace).reverse.dropWhile
    Char.isWhitespace).reverse)

/-- Python `s.endswith(ext)`. -/
def pyEndsWith (s ext : String) : Bool :=
  ext.data.reverse.isPrefixOf s.data.reverse

/-- Python substring test `pat in s` for a nonempty pattern: a split on
the pattern yields more than one piece exactly when it occurs. -/
def containsSub (s pat : String) : Bool :=
  (pySplit s pat).length > 1

/-- Python `s.split(marker)[1].strip()`: the text between the first and
second occurrence of `marker` (to the end when there is no second
occurrence), stripped.  Callers guard with `containsSub`, so index 1
exists. -/
def sectionAfter (s marker : String) : String :=
  pyStrip ((pySplit s marker).getD 1 "")

/-- Outcome of `self.model.generate_content(prompt)` inside
`CodeAnalyzer`: the response text, or the message of a raised
exception. -/
abbrev GenResult := Except String String

/-- Result of `CodeAnalyzer.analyze_commit_changes`, plus whether the
Gemini model was actually invoked on this call. -/
structure AnalyzeResult where
  explanation : String
  updated_architecture : Option String
  model_called : Bool
  deriving DecidableEq, Repr

/-- The marker-based architecture extraction of
`CodeAnalyzer.analyze_commit_changes` (`analyzer.py` lines 153-161); the
cache-hit path of `CommitTeacherApp.analyze_current_commit`
(`app.py` lines 375-379) repeats the identical logic inline. -/
def extract_updated_arch (response_text : String) : Option String :=
  if containsSub response_text "## Updated Architecture" then
    let arch_section := sectionAfter response_text "## Updated Architecture"
    if containsSub arch_section "NO ARCHITECTURE UPDATE NEEDED" then none
    else some arch_section
  else none

/-- The fixed explanation for a commit without a diff
(`analyzer.py` line 99). -/
def first_commit_explanation : String :=
  "This is the first commit with no previous changes to compare."

/-- `CodeAnalyzer.analyze_commit_changes` (`analyzer.py` lines 77-166).
`if not diff:` is Python truthiness: both `None` and `""` short-circuit
to the fixed first-commit explanation without touching the model.  A
raised API exception is caught and degraded to an inline error string. -/
def analyze_commit_changes (diff : Option String) (gen : GenResult) : AnalyzeResult :=
  if diff.getD "" = "" then
    { explanation := first_commit_explanation
      updated_architecture := none
      model_called := false }
  else
    match gen with
    | .error e =>
      { explanation := "Error analyzing commit: " ++ e
        updated_architecture := none
        model_called := true }
    | .ok response_text =>
      { explanation := response_text
        updated_architecture := extract_updated_arch response_text
        model_called := true }

/-- Session-level state of `CommitTeacherApp` (`app.py` lines 35-47):
git navigation state, in-memory cache manifest, the persisted
architecture document (`StorageHandler` file contents, `none` before the
first save), `self.architecture`, `self.last_explanation` and the
`use_cache` flag. -/
structure AppState where
  git : GitState
  cache : CacheData
  storage_arch : Option String
  architecture : Option String
  last_explanation : Option String
  use_cache : Bool
  deriving Repr

/-- Observable side effects of a session operation, in order of
occurrence: cache writes and analyzer activity. -/
inductive Event where
  | saveAnalysis : String → String → Event
  | saveCursor : Int → Int → Event
  | analyzeCommitCall : Event
  | describeArchCall : Event
  | modelCall : Event
  deriving DecidableEq, Repr

/-- `CommitTeacherApp.analyze_current_commit` (`app.py` lines 362-404).
The cache is only consulted when `use_cache` holds; a hit adopts the
cached explanation verbatim (re-applying any embedded architecture
update) without invoking the analyzer; a miss runs the analyzer on the
diff and, when `use_cache` holds, caches the resulting explanation. -/
def analyze_current_commit (s : AppState) (diff : DiffOracle) (gen : GenResult)
    (now : String) : AppState × List Event :=
  let commit_sha := get_commit_sha s.git
  let hit : Option String :=
    if s.use_cache then get_commit_analysis s.cache commit_sha else none
  match hit with
  | some cached =>
    let s1 := { s with last_explanation := some cached }
    match extract_updated_arch cached with
    | some arch => ({ s1 with architecture := some arch, storage_arch := some arch }, [])
    | none => (s1, [])
  | none =>
    let r := analyze_commit_changes (get_commit_diff s.git diff) gen
    let s1 := { s with last_explanation := some r.explanation }
    let s2 :=
      match r.updated_architecture with
      | some arch => { s1 with architecture := some arch, storage_arch := some arch }
      | none => s1
    let callEvents :=
      if r.model_called then [Event.analyzeCommitCall, Event.modelCall]
      else [Event.analyzeCommitCall]
    if s.use_cache then
      ({ s2 with cache := save_commit_analysis s2.cache commit_sha r.explanation none now },
       callEvents ++ [Event.saveAnalysis commit_sha r.explanation])
    else (s2, callEvents)

/-- `CommitTeacherApp.on_next_commit` (`app.py` lines 292-325): a failed
navigation only surfaces a notice (screen-level, session state
untouched); a successful one analyzes the new current commit and, when
`use_cache` holds, persists the cursor. -/
def on_next_commit (s : AppState) (co : CheckoutResult) (diff : DiffOracle)
    (gen : GenResult) (now : String) : AppState × Bool × String × List Event :=
  let (g2, ok, msg) := go_to_next_commit s.git co
  let s1 := { s with git := g2 }
  if ok then
    let (s2, evs) := analyze_current_commit s1 diff gen now
    if s2.use_cache then
      let (current, total) := get_progress s2.git
      ({ s2 with cache := save_last_position s2.cache (current - 1) total },
       true, msg, evs ++ [Event.saveCursor (current - 1) total])
    else (s2, true, msg, evs)
  else (s1, false, msg, [])

/-- `CommitTeacherApp.on_previous_commit` (`app.py` lines 327-360). -/
def on_previous_commit (s : AppState) (co : CheckoutResult) (diff : DiffOracle)
    (gen : GenResult) (now : String) : AppState × Bool × String × List Event :=
  let (g2, ok, msg) := go_to_previous_commit s.git co
  let s1 := { s with git := g2 }
  if ok then
    let (s2, evs) := analyze_current_commit s1 diff gen now
    if s2.use_cache then
      let (current, total) := get_progress s2.git
      ({ s2 with cache := save_last_position s2.cache (current - 1) total },
       true, msg, evs ++ [Event.saveCursor (current - 1) total])
    else (s2, true, msg, evs)
  else (s1, false, msg, [])

/-- The allow-listed extensions of `CommitTeacherApp.analyze_first_commit`
(`app.py` line 260). -/
def important_extensions : List String :=
  [".py", ".js", ".ts", ".java", ".go", ".rs", ".cpp", ".c", ".h",
   ".md", ".txt", ".json", ".yaml", ".yml", ".toml"]

/-- Python `any(file_path.endswith(ext) for ext in important_extensions)`. -/
def matchesImportantExt (file_path : String) : Bool :=
  important_extensions.any (fun ext => pyEndsWith file_path ext)

/-- The sampling loop of `analyze_first_commit` (`app.py` lines 263-267):
iterate over `file_tree[:20]` and keep files with an allow-listed
extension whose content reads back truthy (non-empty) and shorter than
10,000 characters.  `readFile` is `GitHandler.read_file` (`none` for a
missing or unreadable file). -/
def sampleFileContents (file_tree : List String) (readFile : String → Option String) :
    List (String × String) :=
  (file_tree.take 20).filterMap (fun file_path =>
    if matchesImportantExt file_path then
      match readFile file_path with
      | some content =>
        if content ≠ "" ∧ content.length < 10000 then some (file_path, content) else none
      | none => none
    else none)

/-- The synthesized first-commit explanation (`app.py` lines 278-283). -/
def synth_first_explanation (architecture : String) : String :=
  "# Initial Commit\n\nThis is the first commit of the project. The architecture has been analyzed and documented.\n\n"
    ++ architecture ++ "\n"

/-- `CommitTeacherApp.analyze_first_commit` (`app.py` lines 237-290).
`archGen` is the opaque `CodeAnalyzer.analyze_initial_architecture`
capability (its internal API failure is already degraded to an error
string inside it, so a plain `String` result is faithful). -/
def analyze_first_commit (s : AppState) (file_tree : List String)
    (readFile : String → Option String)
    (archGen : List String → List (String × String) → String)
    (now : String) : AppState × List Event :=
  let first_commit_sha := shortSha ((s.git.commits.get? 0).getD "")
  match get_commit_analysis s.cache first_commit_sha with
  | some cached =>
    let s1 := { s with last_explanation := some cached }
    if containsSub cached "# Initial Commit" then
      ({ s1 with architecture := some (sectionAfter cached "# Initial Commit") }, [])
    else
      ({ s1 with architecture := s.storage_arch }, [])
  | none =>
    let file_contents := sampleFileContents file_tree readFile
    let architecture := archGen file_tree file_contents
    let explanation := synth_first_explanation architecture
    let s1 := { s with
      architecture := some architecture
      storage_arch := some architecture
      last_explanation := some explanation }
    if s.use_cache then
      ({ s1 with cache := save_commit_analysis s1.cache first_commit_sha explanation none now },
       [Event.describeArchCall, Event.saveAnalysis first_commit_sha explanation])
    else (s1, [Event.describeArchCall])

lemma roundHalfEven_nonneg {x : ℚ} (hx : 0 ≤ x) : 0 ≤ roundHalfEven x := by
  have h0 : (0 : ℤ) ≤ ⌊x⌋ := Int.floor_nonneg.mpr hx
  unfold roundHalfEven
  repeat' split
  all_goals omega

lemma roundHalfEven_le {x : ℚ} {n : ℤ} (hx : x ≤ (n : ℚ)) : roundHalfEven x ≤ n := by
  have hf : ⌊x⌋ ≤ n := by
    have := Int.floor_le_floor hx
    simpa using this
  unfold roundHalfEven
  split
  · exact hf
  · rename_i h1
    have h1' : (1 : ℚ) / 2 ≤ x - ⌊x⌋ := le_of_not_lt h1
    split
    · by_contra hn
      have heq : ⌊x⌋ = n := by omega
      have : x ≤ (⌊x⌋ : ℚ) := by rw [heq]; exact_mod_cast hx
      have hge : (⌊x⌋ : ℚ) ≤ x := Int.floor_le x
      linarith
    · split
      · exact hf
      · by_contra hn
        have heq : ⌊x⌋ = n := by omega
        have : x ≤ (⌊x⌋ : ℚ) := by rw [heq]; exact_mod_cast hx
        linarith

lemma round1_nonneg {x : ℚ} (hx : 0 ≤ x) : 0 ≤ round1 x := by
  unfold round1
  have h : 0 ≤ roundHalfEven (x * 10) := roundHalfEven_nonneg (by linarith)
  have h' : (0 : ℚ) ≤ (roundHalfEven (x * 10) : ℚ) := by exact_mod_cast h
  linarith

lemma round1_le_hundred {x : ℚ} (hx : x ≤ 100) : round1 x ≤ 100 := by
  unfold round1
  have h : roundHalfEven (x * 10) ≤ (1000 : ℤ) := by
    apply roundHalfEven_le
    push_cast
    linarith
  have h' : (roundHalfEven (x * 10) : ℚ) ≤ 1000 := by exact_mod_cast h
  linarith

lemma round1_zero : round1 0 = 0 := by
  unfold round1 roundHalfEven
  norm_num

lemma lookup_dictInsert (m : List (String × CommitEntry)) (k : String) (v : CommitEntry) :
    (dictInsert m k v).lookup k = some v := by
  induction m with
  | nil => simp [dictInsert, List.lookup]
  | cons hd tl ih =>
    obtain ⟨k', v'⟩ := hd
    by_cases hk : k' = k
    · simp [dictInsert, hk, List.lookup]
    · have hbe : (k == k') = false := beq_eq_false_iff_ne.mpr (Ne.symm hk)
      simp [dictInsert, hk, List.lookup, ih, hbe]

/-!
C8: `update_total_commits` reconciliation.
-/

/-- C8.  For all pairs of old and new totals, including a shrinking
total, `update_total_commits` returns `delta = max 0 (new - old)`
(never negative) with the old and new totals, and stores the new total
in the manifest. -/
theorem C8_update_total (d : CacheData) (newTotal : Int) :
    (update_total_commits d newTotal).2.new_commits = max 0 (newTotal - d.total_commits) ∧
    0 ≤ (update_total_commits d newTotal).2.new_commits ∧
    (update_total_commits d newTotal).2.old_total = d.total_commits ∧
    (update_total_commits d newTotal).2.new_total = newTotal ∧
    (update_total_commits d newTotal).1.total_commits = newTotal := by
  refine ⟨rfl, ?_, rfl, rfl, rfl⟩
  simp [update_total_commits]

/-!
C9: manifest loading and its uncaught error path.
-/

/-- C9, evaluation of the code over all read outcomes.  `load_cache`
behaves as claimed on four of the five outcomes — a successful read
returns `true` with the stored manifest, and a missing file, an
`IOError` or a `json.JSONDecodeError` yield a fresh manifest (cursor
`-1`, total `0`, empty commit map) with `false` — but on the failing
input, a present manifest whose bytes are invalid UTF-8, the
`UnicodeDecodeError` raised inside `json.load` is not matched by
`except (json.JSONDecodeError, IOError)` and propagates to the caller:
the load fails fatally, contradicting the claim. -/
theorem C9_load_cache (name url now : String) (d : CacheData) (e : String) :
    load_cache (DiskFile.valid d) name url now = .ok (true, d) ∧
    load_cache DiskFile.ioError name url now =
      .ok (false, initialize_cache name url now) ∧
    load_cache DiskFile.jsonDecodeError name url now =
      .ok (false, initialize_cache name url now) ∧
    load_cache DiskFile.absent name url now =
      .ok (false, initialize_cache name url now) ∧
    load_cache (DiskFile.unicodeDecodeError e) name url now = .error e ∧
    (initialize_cache name url now).last_commit_index = -1 ∧
    (initialize_cache name url now).total_commits = 0 ∧
    (initialize_cache name url now).commits = [] ∧
    get_last_position (initialize_cache name url now) = (-1, 0) := by
  exact ⟨rfl, rfl, rfl, rfl, rfl, rfl, rfl, rfl, rfl⟩

/-!
C1: coverage statistics.
-/

/-- A manifest with more cached commit entries than `total_commits`:
two cached analyses but a recorded total of one commit. -/
def overfullManifest : CacheData :=
  { initialize_cache "repo" "" "t0" with
    commits := [("a", ⟨"a", "e1", none, "t1"⟩), ("b", ⟨"b", "e2", none, "t2"⟩)]
    total_commits := 1 }

/-- C1, counterexample.  The claim asserts `0 ≤ coveragePercent ≤ 100`
for **all** manifests, including those whose cached-entry count exceeds
`totalCommits`; on such a manifest the code computes
`2 / 1 * 100 = 200`, violating the upper bound. -/
theorem C1_coverage_cex :
    (get_cache_stats overfullManifest).coverage_percent = 200 ∧
    ¬ ((get_cache_stats overfullManifest).coverage_percent ≤ 100) := by
  constructor <;>
    norm_num [get_cache_stats, overfullManifest, initialize_cache, round1, roundHalfEven]

/-- C1, amended.  `coveragePercent` is `0` when `totalCommits = 0`,
otherwise `cachedCount / totalCommits * 100` rounded to one decimal; it
is always nonnegative, and it is at most `100` whenever the number of
cached entries does not exceed `totalCommits` (the unrestricted upper
bound of the original claim fails, see the counterexample). -/
theorem C1_coverage (d : CacheData) :
    (get_cache_stats d).coverage_percent =
      round1 (if d.total_commits > 0 then
        (d.commits.length : ℚ) / (d.total_commits : ℚ) * 100 else 0) ∧
    (d.total_commits = 0 → (get_cache_stats d).coverage_percent = 0) ∧
    0 ≤ (get_cache_stats d).coverage_percent ∧
    ((d.commits.length : Int) ≤ d.total_commits →
      (get_cache_stats d).coverage_percent ≤ 100) := by
  refine ⟨rfl, ?_, ?_, ?_⟩
  · intro h0
    simp [get_cache_stats, h0, round1_zero]
  · apply round1_nonneg
    split
    · rename_i hpos
      have : (0 : ℚ) < (d.total_commits : ℚ) := by exact_mod_cast hpos
      positivity
    · exact le_refl 0
  · intro hle
    apply round1_le_hundred
    split
    · rename_i hpos
      have hq : (0 : ℚ) < (d.total_commits : ℚ) := by exact_mod_cast hpos
      have hc : (d.commits.length : ℚ) ≤ (d.total_commits : ℚ) := by exact_mod_cast hle
      have h1 : (d.commits.length : ℚ) / (d.total_commits : ℚ) ≤ 1 :=
        (div_le_one hq).mpr hc
      linarith
    · norm_num

/-- C1, witness: the amended theorem evaluated on a fresh manifest
(zero totals) and on a half-covered manifest. -/
theorem C1_coverage_wit :
    0 ≤ (get_cache_stats (initialize_cache "r" "" "t")).coverage_percent ∧
    (get_cache_stats (initialize_cache "r" "" "t")).coverage_percent = 0 ∧
    (get_cache_stats (initialize_cache "r" "" "t")).coverage_percent ≤ 100 :=
  ⟨(C1_coverage (initialize_cache "r" "" "t")).2.2.1,
   (C1_coverage (initialize_cache "r" "" "t")).2.1 rfl,
   (C1_coverage (initialize_cache "r" "" "t")).2.2.2 (by decide)⟩

/-!
C3: the cursor never leaves `[-1, N-1]` and boundary Advances refuse
without mutating state.
-/

lemma advance_frame (g : GitState) (dir : Direction) (co : CheckoutResult) :
    (advance g dir co).1.commits = g.commits ∧ (advance g dir co).1.repo = g.repo := by
  cases dir <;>
    simp only [advance, go_to_next_commit, go_to_previous_commit] <;>
    repeat' split
  all_goals simp

lemma advance_cursor_bounds (g : GitState) (dir : Direction) (co : CheckoutResult)
    (h : cursorInRange g) : cursorInRange (advance g dir co).1 := by
  obtain ⟨h1, h2⟩ := h
  unfold cursorInRange
  cases dir <;>
    simp only [advance, go_to_next_commit, go_to_previous_commit] <;>
    repeat' split
  all_goals simp_all
  all_goals omega

lemma runAdvances_bounds (ops : List (Direction × CheckoutResult)) :
    ∀ g : GitState, cursorInRange g → cursorInRange (runAdvances g ops) := by
  induction ops with
  | nil => intro g h; exact h
  | cons op rest ih =>
    intro g h
    obtain ⟨dir, co⟩ := op
    simpa [runAdvances] using ih _ (advance_cursor_bounds g dir co h)

/-- C3.  For any sequence of Advance requests the cursor stays in
`[-1, N-1]`; Advance(forward) at index `N-1` and Advance(backward) at
index `0` on a loaded, nonempty repository return a non-fatal
already-at-edge failure and leave the whole git state unchanged. -/
theorem C3_cursor_invariant (g : GitState) (ops : List (Direction × CheckoutResult))
    (co co' : CheckoutResult) :
    (cursorInRange g → cursorInRange (runAdvances g ops)) ∧
    (g.repo = true → g.commits ≠ [] →
      g.current_commit_index = (g.commits.length : Int) - 1 →
      go_to_next_commit g co = (g, false, "Already at the latest commit")) ∧
    (g.repo = true → g.commits ≠ [] → g.current_commit_index = 0 →
      go_to_previous_commit g co' = (g, false, "Already at the first commit")) := by
  refine ⟨fun h => runAdvances_bounds ops g h, ?_, ?_⟩
  · intro h1 h2 h3
    simp [go_to_next_commit, h1, h2, h3]
  · intro h1 h2 h3
    simp [go_to_previous_commit, h1, h2, h3]

/-- A loaded single-commit repository positioned at its only commit:
both navigation directions are at their boundary. -/
def oneCommitRepo : GitState :=
  { repo := true, commits := ["aaaaaaaa"], current_commit_index := 0 }

/-- C3, witness: the invariant and both boundary refusals evaluated on a
concrete one-commit repository and a concrete request sequence. -/
theorem C3_cursor_invariant_wit :
    cursorInRange (runAdvances oneCommitRepo
      [(Direction.forward, none), (Direction.backward, some "err"),
       (Direction.forward, some "err"), (Direction.backward, none)]) ∧
    go_to_next_commit oneCommitRepo none =
      (oneCommitRepo, false, "Already at the latest commit") ∧
    go_to_previous_commit oneCommitRepo none =
      (oneCommitRepo, false, "Already at the first commit") := by
  have h := C3_cursor_invariant oneCommitRepo
    [(Direction.forward, none), (Direction.backward, some "err"),
     (Direction.forward, some "err"), (Direction.backward, none)] none none
  exact ⟨h.1 (by decide), h.2.1 rfl (by decide) (by decide),
    h.2.2 rfl (by decide) (by decide)⟩

/-!
Structural lemmas about `analyze_current_commit`.
-/

lemma acc_frame (s : AppState) (d : DiffOracle) (gen : GenResult) (n : String) :
    (analyze_current_commit s d gen n).1.git = s.git ∧
    (analyze_current_commit s d gen n).1.use_cache = s.use_cache := by
  simp only [analyze_current_commit]
  rcases hhit : (if s.use_cache = true then
      get_commit_analysis s.cache (get_commit_sha s.git) else none) with _ | cached
  · cases hx : (analyze_commit_changes (get_commit_diff s.git d) gen).updated_architecture <;>
      cases hu : s.use_cache <;> simp [hx, hu]
  · cases hx : extract_updated_arch cached <;> simp [hx]

lemma acc_miss (s : AppState) (d : DiffOracle) (gen : GenResult) (n : String)
    (hmiss : (if s.use_cache then
      get_commit_analysis s.cache (get_commit_sha s.git) else none) = none) :
    (analyze_current_commit s d gen n).1.last_explanation =
      some (analyze_commit_changes (get_commit_diff s.git d) gen).explanation ∧
    (analyze_current_commit s d gen n).1.architecture =
      (match (analyze_commit_changes (get_commit_diff s.git d) gen).updated_architecture with
        | some a => some a
        | none => s.architecture) ∧
    (analyze_current_commit s d gen n).1.storage_arch =
      (match (analyze_commit_changes (get_commit_diff s.git d) gen).updated_architecture with
        | some a => some a
        | none => s.storage_arch) ∧
    (analyze_current_commit s d gen n).1.cache =
      (if s.use_cache then
        save_commit_analysis s.cache (get_commit_sha s.git)
          (analyze_commit_changes (get_commit_diff s.git d) gen).explanation none n
      else s.cache) ∧
    (analyze_current_commit s d gen n).2 =
      ((if (analyze_commit_changes (get_commit_diff s.git d) gen).model_called then
          [Event.analyzeCommitCall, Event.modelCall]
        else [Event.analyzeCommitCall]) ++
       (if s.use_cache then
          [Event.saveAnalysis (get_commit_sha s.git)
            (analyze_commit_changes (get_commit_diff s.git d) gen).explanation]
        else [])) := by
  simp only [analyze_current_commit]
  rw [show (if s.use_cache = true then
      get_commit_analysis s.cache (get_commit_sha s.git) else none) = none from hmiss]
  cases hx : (analyze_commit_changes (get_commit_diff s.git d) gen).updated_architecture <;>
    cases hm : (analyze_commit_changes (get_commit_diff s.git d) gen).model_called <;>
    cases hu : s.use_cache <;>
    simp [hx, hm, hu]

/-!
C4: Resolve is idempotent under caching.
-/

/-- A loaded two-commit repository positioned at the second commit. -/
def twoCommitGit : GitState :=
  { repo := true, commits := ["aaaaaaaa", "bbbbbbbb"], current_commit_index := 1 }

/-- A diff oracle that always produces a nonempty diff. -/
def constDiffOracle : DiffOracle := fun _ _ => some "DIFF"

/-- A caching-enabled session on `twoCommitGit` with an empty cache. -/
def cachedSession : AppState :=
  { git := twoCommitGit
    cache := initialize_cache "r" "" "t0"
    storage_arch := none
    architecture := none
    last_explanation := none
    use_cache := true }

/-- C5.  With `use_cache = false`, neither Advance direction ever emits
a `saveAnalysis` or `saveCursor` event (the manifest is untouched), and
every successful Advance invokes the analyzer capability exactly once —
so revisiting the same commit re-invokes it every time. -/
theorem C5_cache_disabled (s : AppState) (co : CheckoutResult) (d : DiffOracle)
    (gen : GenResult) (n : String) (hu : s.use_cache = false) :
    (on_next_commit s co d gen n).1.cache = s.cache ∧
    (∀ e ∈ (on_next_commit s co d gen n).2.2.2,
      e = Event.analyzeCommitCall ∨ e = Event.modelCall) ∧
    ((on_next_commit s co d gen n).2.1 = true →
      (on_next_commit s co d gen n).2.2.2.count Event.analyzeCommitCall = 1) ∧
    (on_previous_commit s co d gen n).1.cache = s.cache ∧
    (∀ e ∈ (on_previous_commit s co d gen n).2.2.2,
      e = Event.analyzeCommitCall ∨ e = Event.modelCall) ∧
    ((on_previous_commit s co d gen n).2.1 = true →
      (on_previous_commit s co d gen n).2.2.2.count Event.analyzeCommitCall = 1) := by
  have hkey : ∀ g2 : GitState,
      (analyze_current_commit { s with git := g2 } d gen n).1.cache = s.cache ∧
      (analyze_current_commit { s with git := g2 } d gen n).1.use_cache = false ∧
      ((analyze_current_commit { s with git := g2 } d gen n).2 = [Event.analyzeCommitCall] ∨
       (analyze_current_commit { s with git := g2 } d gen n).2 =
         [Event.analyzeCommitCall, Event.modelCall]) := by
    intro g2
    have h := acc_miss { s with git := g2 } d gen n (by simp [hu])
    refine ⟨?_, ?_, ?_⟩
    · rw [h.2.2.2.1]; simp [hu]
    · rw [(acc_frame _ d gen n).2]; exact hu
    · rw [h.2.2.2.2]
      cases hm : (analyze_commit_changes
          (get_commit_diff ({ s with git := g2 } : AppState).git d) gen).model_called <;>
        simp [hm, hu]
  refine ⟨?_, ?_, ?_, ?_, ?_, ?_⟩
  all_goals (
    first
      | (simp only [on_next_commit]
         rcases hnav : go_to_next_commit s.git co with ⟨g2, ok, msg⟩)
      | (simp only [on_previous_commit]
         rcases hnav : go_to_previous_commit s.git co with ⟨g2, ok, msg⟩))
  all_goals (
    cases ok
    · simp
    · (obtain ⟨hc, hu2, hev⟩ := hkey g2
       rcases hacc : analyze_current_commit { s with git := g2 } d gen n with ⟨s2, evs⟩
       rw [hacc] at hc hu2 hev
       simp only at hc hu2 hev
       rcases hev with hev | hev <;> simp [hc, hu2, hev]))

/-!
C7: analyzer failures degrade to an inline error explanation.
-/

/-- C7.  When the model call raises with message `e` (and a diff is
available so the analyzer is actually reached), Resolve does not
propagate the exception: the resulting explanation is the inline string
`"Error analyzing commit: " ++ e` (which contains the failure message as
its suffix), no architecture update happens, and the navigation state is
untouched, so subsequent Advances behave exactly as before. -/
theorem C7_analyzer_failure (s : AppState) (d : DiffOracle) (e n : String)
    (hmiss : s.use_cache = false ∨
      get_commit_analysis s.cache (get_commit_sha s.git) = none)
    (hd : (get_commit_diff s.git d).getD "" ≠ "") :
    (analyze_current_commit s d (.error e) n).1.last_explanation =
      some ("Error analyzing commit: " ++ e) ∧
    (analyze_current_commit s d (.error e) n).1.architecture = s.architecture ∧
    (analyze_current_commit s d (.error e) n).1.storage_arch = s.storage_arch ∧
    (analyze_current_commit s d (.error e) n).1.git = s.git ∧
    (∀ dir co, advance (analyze_current_commit s d (.error e) n).1.git dir co =
      advance s.git dir co) := by
  have herr : analyze_commit_changes (get_commit_diff s.git d) (.error e) =
      ⟨"Error analyzing commit: " ++ e, none, true⟩ := by
    unfold analyze_commit_changes
    simp [hd]
  have hmiss' : (if s.use_cache = true then
      get_commit_analysis s.cache (get_commit_sha s.git) else none) = none := by
    rcases hmiss with h | h <;> simp [h]
  have h := acc_miss s d (.error e) n hmiss'
  refine ⟨?_, ?_, ?_, (acc_frame s d _ n).1,
    fun dir co => by rw [(acc_frame s d _ n).1]⟩
  · rw [h.1, herr]
  · rw [h.2.1, herr]
  · rw [h.2.2.1, herr]

/-- C7, witness: the failure-degradation theorem evaluated on a concrete
session whose cache misses and whose diff oracle returns a nonempty
diff. -/
theorem C7_analyzer_failure_wit :
    (analyze_current_commit cachedSession constDiffOracle (.error "boom") "t").1.last_explanation
      = some ("Error analyzing commit: " ++ "boom") ∧
    (analyze_current_commit cachedSession constDiffOracle (.error "boom") "t").1.architecture
      = cachedSession.architecture ∧
    (analyze_current_commit cachedSession constDiffOracle (.error "boom") "t").1.git
      = cachedSession.git :=
  ⟨(C7_analyzer_failure cachedSession constDiffOracle "boom" "t"
      (Or.inr (by decide)) (by decide)).1,
   (C7_analyzer_failure cachedSession constDiffOracle "boom" "t"
      (Or.inr (by decide)) (by decide)).2.1,
   (C7_analyzer_failure cachedSession constDiffOracle "boom" "t"
      (Or.inr (by decide)) (by decide)).2.2.2.1⟩

/-- A caching-disabled session on `twoCommitGit` with an empty cache. -/
def noCacheSession : AppState :=
  { git := twoCommitGit
    cache := initialize_cache "r" "" "t0"
    storage_arch := none
    architecture := none
    last_explanation := none
    use_cache := false }

/-- C5, witness: the cache-disabled frame theorem evaluated on a
concrete session; the backward Advance from index 1 succeeds and
invokes the analyzer capability exactly once. -/
theorem C5_cache_disabled_wit :
    (on_next_commit noCacheSession none constDiffOracle (.ok "X") "t").1.cache
      = noCacheSession.cache ∧
    (on_previous_commit noCacheSession none constDiffOracle (.ok "X") "t").1.cache
      = noCacheSession.cache ∧
    (on_previous_commit noCacheSession none constDiffOracle
      (.ok "X") "t").2.2.2.count Event.analyzeCommitCall = 1 :=
  ⟨(C5_cache_disabled noCacheSession none constDiffOracle (.ok "X") "t" rfl).1,
   (C5_cache_disabled noCacheSession none constDiffOracle (.ok "X") "t" rfl).2.2.2.1,
   (C5_cache_disabled noCacheSession none constDiffOracle (.ok "X") "t" rfl).2.2.2.2.2
     (by decide)⟩

/-!
C10: no diff means the fixed first-commit explanation, no model call.
-/

/-- C10.  Whenever the current commit has no predecessor
(`current_commit_index ≤ 0`, e.g. after navigating back to ordinal 0),
`get_commit_diff` yields no diff, and commit analysis on that absent
diff returns the fixed first-commit explanation with no architecture
update and without invoking the model at all. -/
theorem C10_no_diff_fixed_explanation (g : GitState) (d : DiffOracle) (gen : GenResult)
    (h : g.current_commit_index ≤ 0) :
    get_commit_diff g d = none ∧
    analyze_commit_changes (get_commit_diff g d) gen =
      { explanation := "This is the first commit with no previous changes to compare."
        updated_architecture := none
        model_called := false } := by
  have h1 : get_commit_diff g d = none := by
    unfold get_commit_diff
    simp [h]
  refine ⟨h1, ?_⟩
  rw [h1]
  rfl

/-- C10, witness: the theorem evaluated on a concrete repository at
ordinal 0. -/
theorem C10_no_diff_fixed_explanation_wit :
    get_commit_diff oneCommitRepo constDiffOracle = none ∧
    analyze_commit_changes (get_commit_diff oneCommitRepo constDiffOracle) (.ok "X") =
      { explanation := "This is the first commit with no previous changes to compare."
        updated_architecture := none
        model_called := false } :=
  C10_no_diff_fixed_explanation oneCommitRepo constDiffOracle (.ok "X") (by decide)

/-!
C2: bootstrap sampling and analysis on a cache miss.
-/

/-- A 21-entry file tree whose first entry does not match the
allow-listed extensions while the remaining 20 do. -/
def wideTree : List String :=
  ["f00.bin", "f01.py", "f02.py", "f03.py", "f04.py", "f05.py", "f06.py",
   "f07.py", "f08.py", "f09.py", "f10.py", "f11.py", "f12.py", "f13.py",
   "f14.py", "f15.py", "f16.py", "f17.py", "f18.py", "f19.py", "f20.py"]

/-- A read oracle under which every file reads back as the short
nonempty string `"x"`. -/
def constReadFile : String → Option String := fun _ => some "x"

/-- C2, counterexample.  The claim samples "the first 20 files that
match the allow-listed extension set"; the code instead slices
`file_tree[:20]` **before** filtering.  On `wideTree`, `f20.py` is among
the first 20 matching files (it is the 20th), it is readable, nonempty
and far below the 10,000-character cap, yet no sampled entry has the
path `f20.py`. -/
theorem C2_bootstrap_cex :
    "f20.py" ∈ (wideTree.filter (fun p => matchesImportantExt p)).take 20 ∧
    constReadFile "f20.py" = some "x" ∧
    ("x" : String) ≠ "" ∧ ("x" : String).length < 10000 ∧
    (sampleFileContents wideTree constReadFile).all
      (fun pc => pc.1 ≠ "f20.py") = true ∧
    (sampleFileContents wideTree constReadFile).length = 19 := by
  decide

/-- C2, amended.  On a Bootstrap cache miss with caching enabled: the
sample consists of exactly those files among the **first 20 entries of
the file tree** (not the first 20 matching files) that match the
allow-listed extensions and whose content reads back nonempty and
strictly shorter than 10,000 characters (so every sampled content is
under the 10,000-character cap — oversized files are skipped, not
truncated); the describe-initial-architecture capability is invoked
exactly once, and its result is stored as the architecture document and
as a synthesized explanation cached under the first commit's short
identifier. -/
theorem C2_bootstrap (s : AppState) (tree : List String)
    (rf : String → Option String) (ag : List String → List (String × String) → String)
    (now : String) (hu : s.use_cache = true)
    (hmiss : get_commit_analysis s.cache (shortSha ((s.git.commits.get? 0).getD "")) = none) :
    (analyze_first_commit s tree rf ag now).2 =
      [Event.describeArchCall,
       Event.saveAnalysis (shortSha ((s.git.commits.get? 0).getD ""))
         (synth_first_explanation (ag tree (sampleFileContents tree rf)))] ∧
    (analyze_first_commit s tree rf ag now).1.architecture =
      some (ag tree (sampleFileContents tree rf)) ∧
    (analyze_first_commit s tree rf ag now).1.storage_arch =
      some (ag tree (sampleFileContents tree rf)) ∧
    (analyze_first_commit s tree rf ag now).1.last_explanation =
      some (synth_first_explanation (ag tree (sampleFileContents tree rf))) ∧
    get_commit_analysis (analyze_first_commit s tree rf ag now).1.cache
        (shortSha ((s.git.commits.get? 0).getD "")) =
      some (synth_first_explanation (ag tree (sampleFileContents tree rf))) ∧
    (∀ p c, (p, c) ∈ sampleFileContents tree rf ↔
      (p ∈ tree.take 20 ∧ matchesImportantExt p = true ∧ rf p = some c ∧
       c ≠ "" ∧ c.length < 10000)) := by
  refine ⟨?_, ?_, ?_, ?_, ?_, ?_⟩
  · simp only [analyze_first_commit, hmiss, hu, if_true]
  · simp only [analyze_first_commit, hmiss, hu, if_true]
  · simp only [analyze_first_commit, hmiss, hu, if_true]
  · simp only [analyze_first_commit, hmiss, hu, if_true]
  · simp only [analyze_first_commit, hmiss, hu, if_true]
    simp [get_commit_analysis, save_commit_analysis, lookup_dictInsert]
  · intro p c
    constructor
    · intro hm
      simp only [sampleFileContents, List.mem_filterMap] at hm
      obtain ⟨a, ha, hfa⟩ := hm
      rcases hext : matchesImportantExt a with _ | _
      · rw [hext] at hfa; simp at hfa
      · rw [hext] at hfa
        simp only [if_true] at hfa
        rcases hrf : rf a with _ | content
        · rw [hrf] at hfa; simp at hfa
        · rw [hrf] at hfa
          simp only at hfa
          split_ifs at hfa with hcond
          · rw [Option.some_inj, Prod.mk.injEq] at hfa
            obtain ⟨hap, hcc⟩ := hfa
            subst hap; subst hcc
            exact ⟨ha, hext, hrf, hcond.1, hcond.2⟩
    · rintro ⟨hmem, hext, hrf, hne, hlen⟩
      refine List.mem_filterMap.mpr ⟨p, hmem, ?_⟩
      simp [hext, hrf, hne, hlen]

/-- C2, witness: the amended bootstrap theorem evaluated on a concrete
cache-missing session with a one-file tree. -/
theorem C2_bootstrap_wit :
    (analyze_first_commit cachedSession ["a.py"] (fun _ => some "print")
      (fun _ _ => "ARCH") "t").1.architecture = some "ARCH" ∧
    (analyze_first_commit cachedSession ["a.py"] (fun _ => some "print")
      (fun _ _ => "ARCH") "t").2 =
      [Event.describeArchCall,
       Event.saveAnalysis "aaaaaaa" (synth_first_explanation "ARCH")] ∧
    ("a.py", "print") ∈ sampleFileContents ["a.py"] (fun _ => some "print") := by
  have h := C2_bootstrap cachedSession ["a.py"] (fun _ => some "print")
    (fun _ _ => "ARCH") "t" rfl (by decide)
  refine ⟨h.2.1, ?_, (h.2.2.2.2.2 "a.py" "print").mpr (by decide)⟩
  rw [h.1]
  decide

/-!
C6: resume replay.
-/

end CommitTeacher
